import Mathlib

/-!
# ADXL345 accelerometer driver: embedding and properties

Shallow embedding of `modules/adxl345/adxl345.c`.

Conventions of the embedding:

* a byte (`char`, `signed char`) is the natural number of its bit pattern, 0..255;
  the driver only moves bytes, it performs no arithmetic on them;
* a memory region is a function from byte offset to byte. For the device,
  `data k` is the byte at address `adxl345dev->data + k`: offsets below
  `BUFFER_SIZE` are the array `data[BUFFER_SIZE]` itself, larger offsets are
  whatever follows the array in memory;
* `unsigned int` values are naturals reduced modulo 2^32 where the code computes;
* kernel services (allocator, misc device registry, interrupt registry, bus,
  user copy) are inputs of the embedded functions: each function receives what
  the service answers and records what it asked of it;
* every function records the offsets of the memory accesses it performs, so that
  bounds properties are statements about the function itself.
-/

namespace Adxl345

/-! ## Constants -/

def AXES : Nat := 3
def BUFFER_SIZE : Nat := 64
def SAMPLES : Nat := 20

def ADXL345_SET_AXIS_X : Nat := 1024
def ADXL345_SET_AXIS_Y : Nat := 1025
def ADXL345_SET_AXIS_Z : Nat := 1026

/-- Linux errno values used by the driver (`errno-base.h`). -/
def ENOMEM : Int := 12
def ENOTTY : Int := 25

/-- Value of `IRQ_HANDLED` in `irqreturn.h`. -/
def IRQ_HANDLED : Nat := 1

def REG_BW_RATE : Nat := 0x2C
def REG_POWER_CTL : Nat := 0x2D
def REG_INT_ENABLE : Nat := 0x2E
def REG_DATA_FORMAT : Nat := 0x31
def REG_FIFO_CTL : Nat := 0x38

def STREAM_MODE : Nat := 1 <<< 7
def WATERMARK : Nat := 1 <<< 1
def MEASURE_MODE : Nat := 1 <<< 3
def STANDBY_MODE : Nat := 0

def DATA_RATE_100HZ : Nat := 0x0A
def FORMAT_DEFAULT : Nat := 0

def DEVID : List Nat := [0x00]
def DATA : List Nat := [0x32, 0x33, 0x34, 0x35, 0x36, 0x37]

def INIT_RATE : List Nat := [REG_BW_RATE, DATA_RATE_100HZ]
def INIT_FORMAT : List Nat := [REG_DATA_FORMAT, FORMAT_DEFAULT]
def INIT_FIFO : List Nat := [REG_FIFO_CTL, STREAM_MODE ||| SAMPLES]
def INIT_POWER_AND_INT : List Nat := [REG_POWER_CTL, MEASURE_MODE, WATERMARK]
def DEINIT : List Nat := [REG_POWER_CTL, STANDBY_MODE]

/-! ## Device state -/

/-- The fields of `struct adxl345_device` that the driver computes with:
`axis` and the bytes addressed from `data`. -/
structure adxl345_device where
  axis : Nat
  data : Nat → Nat

/-- The device as `devm_kzalloc` hands it to `adxl345_probe`: `axis` and the
64 bytes of `data` are zero; `tail` gives the bytes that follow the array. -/
def kzalloc_device (tail : Nat → Nat) : adxl345_device :=
  { axis := 0, data := fun k => if k < BUFFER_SIZE then 0 else tail k }

/-- One byte store `mem[i] = v`. -/
def poke (mem : Nat → Nat) (i v : Nat) : Nat → Nat :=
  fun k => if k = i then v else mem k

/-- Store of the bytes `bs` at offsets `off, off+1, ...` of `mem`. -/
def store_bytes (mem : Nat → Nat) (off : Nat) (bs : List Nat) : Nat → Nat :=
  fun k => if off ≤ k ∧ k < off + bs.length then bs.getD (k - off) 0 else mem k

/-! ## Control: `adxl345_unlocked_ioctl` -/

/-- The `switch (cmd)` of `adxl345_unlocked_ioctl`: the three axis commands
store `cmd - ADXL345_SET_AXIS_X` (unsigned 32-bit subtraction) into `axis` and
return 0; the default branch returns `-ENOTTY`. The result is the return value
and the device after the call. -/
def adxl345_unlocked_ioctl (dev : adxl345_device) (cmd : Nat) : Int × adxl345_device :=
  if cmd = ADXL345_SET_AXIS_X ∨ cmd = ADXL345_SET_AXIS_Y ∨ cmd = ADXL345_SET_AXIS_Z then
    (0, { dev with axis := (cmd + 2 ^ 32 - ADXL345_SET_AXIS_X) % 2 ^ 32 })
  else
    (-ENOTTY, dev)

/-! ## Bus transactions -/

/-- A transaction the driver asks of the bus: `i2c_master_send` with the bytes
sent, or `i2c_master_recv` with the number of bytes requested. -/
inductive BusOp where
  | send (payload : List Nat)
  | recv (len : Nat)
  deriving DecidableEq

/-- The payloads of the write transactions of a bus trace, in order. -/
def bus_writes : List BusOp → List (List Nat)
  | [] => []
  | BusOp.send p :: rest => p :: bus_writes rest
  | BusOp.recv _ :: rest => bus_writes rest

/-- The transaction `i2c_master_send(client, buf, count)`. -/
def i2c_master_send (buf : List Nat) (count : Nat) : BusOp :=
  BusOp.send (buf.take count)

/-- The transaction `i2c_master_recv(client, buf, count)`. -/
def i2c_master_recv (count : Nat) : BusOp :=
  BusOp.recv count

/-! ## Attach and detach: `adxl345_probe`, `adxl345_remove` -/

/-- What the kernel answers to `adxl345_probe`: whether `devm_kzalloc` returned
memory and what follows the `data` array in it, the return values of
`misc_register` and `devm_request_threaded_irq`, the return value of the k-th
bus transaction of the initialisation sequence (negative for a failed one), and
the byte the variable `dev_id` holds after the identification read. -/
structure ProbeEnv where
  alloc_ok : Bool
  tail : Nat → Nat
  misc_ret : Int
  irq_ret : Int
  bus_ret : Nat → Int
  dev_id : Nat

/-- Outcome of `adxl345_probe`: its return value, whether the misc device is
registered when it returns, the device state when one was allocated, the bus
transactions issued, in order, the return value each of them gave, and the
identification byte printed by the final `pr_info`, if it was reached. -/
structure ProbeResult where
  ret : Int
  registered : Bool
  dev : Option adxl345_device
  bus : List BusOp
  replies : List Int
  logged_devid : Option Nat

/-- The function `adxl345_probe`. Allocation failure returns `ENOMEM`. Otherwise
the misc device is registered (`misc_register` succeeds exactly when it returns
0; its return value is then overwritten), the interrupt is requested, a negative
answer is returned at once, and else the identification read and the four
configuration writes are issued, the return value of each received and dropped,
the identification byte is printed, and the interrupt request's return value is
returned. -/
def adxl345_probe (env : ProbeEnv) : ProbeResult :=
  if env.alloc_ok = false then
    { ret := ENOMEM, registered := false, dev := none, bus := [], replies := [],
      logged_devid := none }
  else
    let dev := kzalloc_device env.tail
    let registered := decide (env.misc_ret = 0)
    let ret := env.irq_ret
    if ret < 0 then
      { ret := ret, registered := registered, dev := some dev, bus := [], replies := [],
        logged_devid := none }
    else
      let r0 := env.bus_ret 0
      let r1 := env.bus_ret 1
      let dev_id := env.dev_id
      let r2 := env.bus_ret 2
      let r3 := env.bus_ret 3
      let r4 := env.bus_ret 4
      let r5 := env.bus_ret 5
      { ret := ret, registered := registered, dev := some dev,
        bus := [ i2c_master_send DEVID 1,
                 i2c_master_recv 1,
                 i2c_master_send INIT_RATE INIT_RATE.length,
                 i2c_master_send INIT_FORMAT INIT_FORMAT.length,
                 i2c_master_send INIT_FIFO INIT_FIFO.length,
                 i2c_master_send INIT_POWER_AND_INT INIT_POWER_AND_INT.length ],
        replies := [r0, r1, r2, r3, r4, r5],
        logged_devid := some dev_id }

/-- Outcome of `adxl345_remove`. -/
structure RemoveResult where
  ret : Int
  registered : Bool
  bus : List BusOp

/-- The function `adxl345_remove`: deregisters the misc device, sends `DEINIT`
(return value `send_ret` discarded) and returns 0. -/
def adxl345_remove (_dev : adxl345_device) (_send_ret : Int) : RemoveResult :=
  { ret := 0, registered := false, bus := [i2c_master_send DEINIT DEINIT.length] }

/-- Whether the k-th of the six bus transactions of the initialisation sequence
failed (negative return value). -/
def init_transaction_failed (env : ProbeEnv) (k : Nat) : Bool :=
  decide (env.bus_ret k < 0)

/-! ## Acquisition: `adxl345_irq` -/

/-- What the bus answers in iteration `i` of the read loop of `adxl345_irq`:
the return value of the register-select write, and the burst read's outcome,
`none` when it failed (negative return value, destination untouched), else the
bytes delivered. -/
structure BusReply where
  send_ret : Int
  recv : Option (List Nat)

/-- The bytes a burst read of `count` bytes stores. -/
def received (r : BusReply) (count : Nat) : List Nat :=
  match r.recv with
  | none => []
  | some bs => bs.take count

/-- State of the read loop: the staging array `tmp`, the `tmp` offsets written
so far and the bus transactions issued so far. -/
structure FillState where
  tmp : Nat → Nat
  written : List Nat
  bus : List BusOp

/-- Body of `for (i = 0; i < SAMPLES; i++)`: send `DATA` (1 byte), receive
`2 * AXES` bytes at `tmp + 2 * AXES * i`. -/
def irq_fill_step (bus : Nat → BusReply) (s : FillState) (i : Nat) : FillState :=
  let got := received (bus i) (2 * AXES)
  { tmp := store_bytes s.tmp (2 * AXES * i) got,
    written := s.written ++ (List.range got.length).map (fun j => 2 * AXES * i + j),
    bus := s.bus ++ [i2c_master_send DATA 1, i2c_master_recv (2 * AXES)] }

/-- The read loop run for `n` iterations from the uninitialised staging array,
whose content is whatever the stack held, `stack`. -/
def irq_fill (bus : Nat → BusReply) (stack : Nat → Nat) (n : Nat) : FillState :=
  (List.range n).foldl (irq_fill_step bus) { tmp := stack, written := [], bus := [] }

/-- State of the extraction loop: the device bytes, the `tmp` offsets read and
the `data` offsets written so far. -/
structure ExtractState where
  data : Nat → Nat
  reads : List Nat
  stores : List Nat

/-- Body of `for (i = 0; i < SAMPLES * AXES; i++)`: `data[i] = tmp[2 * i]`. -/
def irq_extract_step (tmp : Nat → Nat) (s : ExtractState) (i : Nat) : ExtractState :=
  { data := poke s.data i (tmp (2 * i)),
    reads := s.reads ++ [2 * i],
    stores := s.stores ++ [i] }

/-- The extraction loop run for `n` iterations. -/
def irq_extract (tmp : Nat → Nat) (data : Nat → Nat) (n : Nat) : ExtractState :=
  (List.range n).foldl (irq_extract_step tmp) { data := data, reads := [], stores := [] }

/-- Outcome of `adxl345_irq`: return value, device after the pass, whether
`wake_up` was called, the bus transactions, and the memory accesses: `tmp`
offsets written by the burst reads, `tmp` offsets read and `data` offsets
written by the extraction loop. -/
structure IrqResult where
  ret : Nat
  dev : adxl345_device
  woken : Bool
  bus : List BusOp
  tmp_written : List Nat
  tmp_read : List Nat
  data_written : List Nat

/-- The function `adxl345_irq`: read loop, extraction loop, `wake_up`,
`return IRQ_HANDLED`. No return value of a bus transaction is inspected. -/
def adxl345_irq (dev : adxl345_device) (bus : Nat → BusReply) (stack : Nat → Nat) : IrqResult :=
  let f := irq_fill bus stack SAMPLES
  let e := irq_extract f.tmp dev.data (SAMPLES * AXES)
  { ret := IRQ_HANDLED,
    dev := { dev with data := e.data },
    woken := true,
    bus := f.bus,
    tmp_written := f.written,
    tmp_read := e.reads,
    data_written := e.stores }

/-- The two bytes of a 16-bit value in little-endian order. -/
def le16 (v : Nat) : List Nat := [v % 256, v / 256 % 256]

/-- One sample on the wire: the little-endian pairs of X, Y, Z. -/
def wire_sample (s : Nat × Nat × Nat) : List Nat :=
  le16 s.1 ++ le16 s.2.1 ++ le16 s.2.2

/-- The value of axis `a` (0, 1, 2) of a sample. -/
def axis_value (s : Nat × Nat × Nat) (a : Nat) : Nat :=
  match a with
  | 0 => s.1
  | 1 => s.2.1
  | _ => s.2.2

/-- A bus that delivers the synthetic burst `samples`: iteration `i` succeeds
and delivers the six bytes of sample `i`. -/
def synthetic_bus (samples : Nat → Nat × Nat × Nat) : Nat → BusReply :=
  fun i => { send_ret := 1, recv := some (wire_sample (samples i)) }

/-! ## Read: `adxl345_read` -/

/-- The kernel macro `wait_event(wq, condition)` of `linux/wait.h`: the
condition is tested on entry and again after every wake-up of the queue, and the
caller proceeds the first time it holds. `condition k` is the condition's value
after `k` wake-ups; `wakeups` is the number of wake-ups that will come. The
result is the number of wake-ups slept through, `none` when the caller is still
asleep after all of them. -/
def wait_event (condition : Nat → Bool) (wakeups : Nat) : Option Nat :=
  (List.range (wakeups + 1)).find? condition

/-- Outcome of `adxl345_read`: return value, the bytes stored to the caller's
buffer (`buf[0]`, `buf[1]`, ...), the `data` offsets read, and the number of
acquisition passes slept through in `wait_event`. -/
structure ReadResult where
  ret : Int
  out : List Nat
  loads : List Nat
  slept : Nat
  deriving DecidableEq

/-- The copy loop `for (i = 0; i < count; ++i)` of `adxl345_read`, `fuel`
iterations from index `i`. `ok i` tells whether `copy_to_user(buf + i, ..., 1)`
succeeds; when it fails the function returns `i`, and when the loop ends it
returns `count`. The loop counter is not reduced modulo 2^31: the kernel caps
`count` below that. -/
def copy_loop (dev : adxl345_device) (ok : Nat → Bool) (count slept : Nat) :
    Nat → Nat → List Nat → List Nat → ReadResult
  | 0, _, out, loads => { ret := count, out := out, loads := loads, slept := slept }
  | fuel + 1, i, out, loads =>
    let idx := AXES * i + dev.axis
    if ok i then
      copy_loop dev ok count slept fuel (i + 1) (out ++ [dev.data idx]) (loads ++ [idx])
    else
      { ret := i, out := out, loads := loads ++ [idx], slept := slept }

/-- An acquisition pass delivered while a reader sleeps: the bus answers and the
stack content under the handler. -/
structure IrqInput where
  bus : Nat → BusReply
  stack : Nat → Nat

/-- The device after the acquisition passes `irqs`, in order. -/
def after_irqs (dev : adxl345_device) (irqs : List IrqInput) : adxl345_device :=
  irqs.foldl (fun d q => (adxl345_irq d q.bus q.stack).dev) dev

/-- The function `adxl345_read`: `wait_event(adxl345dev->queue, 1)`, then the
copy loop. `irqs` are the acquisition passes that will complete, one wake-up
each, should the caller sleep; the copy loop runs on the device as it is after
the passes slept through. `none` stands for a caller that never wakes. -/
def adxl345_read (dev : adxl345_device) (irqs : List IrqInput) (count : Nat)
    (ok : Nat → Bool) : Option ReadResult :=
  match wait_event (fun _ => decide (1 ≠ 0)) irqs.length with
  | none => none
  | some k => some (copy_loop (after_irqs dev (irqs.take k)) ok count k count 0 [] [])

/-! ## Executions -/

/-- An operation on the attached device. -/
inductive Op where
  | control (cmd : Nat)
  | acquire (bus : Nat → BusReply) (stack : Nat → Nat)
  | read (irqs : List IrqInput) (count : Nat) (ok : Nat → Bool)

/-- The device after one operation. A read changes the device only through the
acquisition passes it sleeps through. -/
def step (dev : adxl345_device) : Op → adxl345_device
  | Op.control cmd => (adxl345_unlocked_ioctl dev cmd).2
  | Op.acquire bus stack => (adxl345_irq dev bus stack).dev
  | Op.read irqs count ok =>
    match adxl345_read dev irqs count ok with
    | none => after_irqs dev irqs
    | some r => after_irqs dev (irqs.take r.slept)

/-- The device after a sequence of operations. -/
def run (dev : adxl345_device) (ops : List Op) : adxl345_device :=
  ops.foldl step dev

/-! ## Concrete inputs -/

/-- The batch of the scenario: X = 1, 2, ..., 20, Y = Z = 0. -/
def ramp_samples : Nat → Nat × Nat × Nat :=
  fun i => (i + 1, 0, 0)

/-- The attached device after axis X was selected and the scenario's batch was
acquired; the bytes after the 64-byte array are 170. -/
def ramp_device : adxl345_device :=
  (adxl345_irq (adxl345_unlocked_ioctl (kzalloc_device (fun _ => 170)) ADXL345_SET_AXIS_X).2
    (synthetic_bus ramp_samples) (fun _ => 85)).dev

/-- A user buffer every byte of which is writable. -/
def writable : Nat → Bool :=
  fun _ => true

/-- A bus on which every transaction fails with `-EIO`. -/
def dead_bus : Nat → BusReply :=
  fun _ => { send_ret := -5, recv := none }

/-- An attach in which allocation, misc registration and the interrupt request
succeed and every bus transaction fails with `-EIO`. -/
def dead_bus_env : ProbeEnv :=
  { alloc_ok := true, tail := fun _ => 0, misc_ret := 0, irq_ret := 0,
    bus_ret := fun _ => -5, dev_id := 0 }

/-- An attach in which everything succeeds and the sensor identifies as 0xE5. -/
def good_env : ProbeEnv :=
  { alloc_ok := true, tail := fun _ => 0, misc_ret := 0, irq_ret := 0,
    bus_ret := fun _ => 1, dev_id := 0xE5 }

/-! ## Theorems -/

/-! ### Loop lemmas -/

theorem received_length_le (r : BusReply) (n : Nat) : (received r n).length ≤ n := by
  unfold received
  cases r.recv with
  | none => simp
  | some bs => simp [List.length_take]

theorem irq_fill_succ (bus : Nat → BusReply) (stack : Nat → Nat) (n : Nat) :
    irq_fill bus stack (n + 1) = irq_fill_step bus (irq_fill bus stack n) n := by
  simp [irq_fill, List.range_succ, List.foldl_append]

/-- Closed form of the staging array after `n` iterations of the read loop. -/
theorem irq_fill_tmp (bus : Nat → BusReply) (stack : Nat → Nat) (n k : Nat) :
    (irq_fill bus stack n).tmp k =
      if k / 6 < n ∧ k % 6 < (received (bus (k / 6)) 6).length then
        (received (bus (k / 6)) 6).getD (k % 6) 0
      else stack k := by
  induction n with
  | zero => simp [irq_fill]
  | succ n ih =>
    rw [irq_fill_succ]
    simp only [irq_fill_step, store_bytes, AXES, Nat.reduceMul]
    rw [ih]
    have hlen := received_length_le (bus n) 6
    rcases Nat.lt_trichotomy (k / 6) n with h | h | h
    · have h1 : ¬ (6 * n ≤ k ∧ k < 6 * n + (received (bus n) 6).length) := by
        omega
      have h2 : k / 6 < n + 1 := by omega
      simp [h1, h, h2]
    · subst h
      have h3 : 6 * (k / 6) ≤ k := by omega
      have h4 : k - 6 * (k / 6) = k % 6 := by omega
      have h5 : (k < 6 * (k / 6) + (received (bus (k / 6)) 6).length)
          ↔ k % 6 < (received (bus (k / 6)) 6).length := by
        constructor <;> intro h <;> omega
      simp [h3, h4, h5]
    · have h1 : ¬ (6 * n ≤ k ∧ k < 6 * n + (received (bus n) 6).length) := by
        omega
      have h2 : ¬ k / 6 < n + 1 := by omega
      have h3 : ¬ k / 6 < n := by omega
      simp [h1, h2, h3]

theorem irq_extract_succ (tmp data : Nat → Nat) (n : Nat) :
    irq_extract tmp data (n + 1) = irq_extract_step tmp (irq_extract tmp data n) n := by
  simp [irq_extract, List.range_succ, List.foldl_append]

/-- Closed form of the device bytes after `n` iterations of the extraction loop. -/
theorem irq_extract_data (tmp data : Nat → Nat) (n k : Nat) :
    (irq_extract tmp data n).data k = if k < n then tmp (2 * k) else data k := by
  induction n with
  | zero => simp [irq_extract]
  | succ n ih =>
    rw [irq_extract_succ]
    simp only [irq_extract_step, poke]
    rw [ih]
    by_cases h : k = n
    · subst h; simp
    · by_cases h2 : k < n
      · have : k < n + 1 := by omega
        simp [h, h2, this]
      · have : ¬ k < n + 1 := by omega
        simp [h, h2, this]

theorem irq_extract_stores (tmp data : Nat → Nat) (n : Nat) :
    (irq_extract tmp data n).stores = List.range n := by
  induction n with
  | zero => simp [irq_extract]
  | succ n ih => rw [irq_extract_succ]; simp [irq_extract_step, ih, List.range_succ]

theorem irq_extract_reads (tmp data : Nat → Nat) (n : Nat) :
    (irq_extract tmp data n).reads = (List.range n).map (fun i => 2 * i) := by
  induction n with
  | zero => simp [irq_extract]
  | succ n ih => rw [irq_extract_succ]; simp [irq_extract_step, ih, List.range_succ]

/-- Offsets written by the read loop when every burst read so far delivered its
six bytes. -/
theorem irq_fill_written (bus : Nat → BusReply) (stack : Nat → Nat) (n : Nat)
    (hfull : ∀ i, i < n → (received (bus i) 6).length = 6) :
    (irq_fill bus stack n).written = List.range (6 * n) := by
  induction n with
  | zero => simp [irq_fill]
  | succ n ih =>
    rw [irq_fill_succ]
    simp only [irq_fill_step, AXES, Nat.reduceMul]
    rw [ih (fun i hi => hfull i (by omega))]
    have h6 : (received (bus n) 6).length = 6 := hfull n (by omega)
    rw [h6]
    have : 6 * (n + 1) = 6 * n + 6 := by ring
    rw [this, List.range_add]


/-- The device bytes after an acquisition pass. -/
theorem adxl345_irq_data (dev : adxl345_device) (bus : Nat → BusReply) (stack : Nat → Nat)
    (k : Nat) :
    (adxl345_irq dev bus stack).dev.data k =
      if k < 60 then (irq_fill bus stack 20).tmp (2 * k) else dev.data k := by
  simp only [adxl345_irq, SAMPLES, AXES, Nat.reduceMul]
  exact irq_extract_data _ _ 60 k

/-- A sample whose burst read delivered six bytes is decoded to the bytes at
even offsets of that burst, whatever the other transactions did. -/
theorem adxl345_irq_sample (dev : adxl345_device) (bus : Nat → BusReply) (stack : Nat → Nat)
    (i a : Nat) (bs : List Nat) (hi : i < 20) (ha : a < 3)
    (hrecv : (bus i).recv = some bs) (hlen : bs.length = 6) :
    (adxl345_irq dev bus stack).dev.data (3 * i + a) = bs.getD (2 * a) 0 := by
  rw [adxl345_irq_data, irq_fill_tmp]
  have h1 : 3 * i + a < 60 := by omega
  have h2 : 2 * (3 * i + a) / 6 = i := by omega
  have h3 : 2 * (3 * i + a) % 6 = 2 * a := by omega
  have h4 : received (bus i) 6 = bs := by
    simp [received, hrecv, List.take_of_length_le, hlen]
  simp [h1, h2, h3, h4, hlen]
  omega

theorem adxl345_irq_axis (dev : adxl345_device) (bus : Nat → BusReply) (stack : Nat → Nat) :
    (adxl345_irq dev bus stack).dev.axis = dev.axis := rfl

theorem after_irqs_axis (irqs : List IrqInput) (dev : adxl345_device) :
    (after_irqs dev irqs).axis = dev.axis := by
  induction irqs generalizing dev with
  | nil => rfl
  | cons q rest ih =>
    have h := ih (adxl345_irq dev q.bus q.stack).dev
    simpa [after_irqs, adxl345_irq_axis] using h

/-- The copy loop when no user copy fails in the range it covers. -/
theorem copy_loop_ok (dev : adxl345_device) (ok : Nat → Bool) (count slept : Nat) :
    ∀ (fuel i : Nat) (out loads : List Nat),
      (∀ j, i ≤ j → j < i + fuel → ok j = true) →
      copy_loop dev ok count slept fuel i out loads =
        { ret := count,
          out := out ++ (List.range' i fuel).map (fun j => dev.data (AXES * j + dev.axis)),
          loads := loads ++ (List.range' i fuel).map (fun j => AXES * j + dev.axis),
          slept := slept } := by
  intro fuel
  induction fuel with
  | zero => intro i out loads _; simp [copy_loop]
  | succ n ih =>
    intro i out loads h
    have hi : ok i = true := h i (Nat.le_refl i) (by omega)
    simp only [copy_loop, hi, if_true]
    rw [ih (i + 1) _ _ (fun j h1 h2 => h j (by omega) (by omega))]
    simp [List.range'_succ]

/-- The wait of `adxl345_read` is over on entry: its condition is the constant 1. -/
theorem wait_event_true (n : Nat) : wait_event (fun _ => decide (1 ≠ 0)) n = some 0 := by
  simp [wait_event, List.range_succ_eq_map]

/-- A read copies from the device as it is when the call is made. -/
theorem adxl345_read_eq (dev : adxl345_device) (irqs : List IrqInput) (count : Nat)
    (ok : Nat → Bool) :
    adxl345_read dev irqs count ok = some (copy_loop dev ok count 0 count 0 [] []) := by
  unfold adxl345_read
  rw [wait_event_true]
  simp [after_irqs]

/-- A read whose user copies all succeed returns `count` and the bytes at
offsets `AXES * i + axis` for every `i < count`. -/
theorem adxl345_read_ok (dev : adxl345_device) (irqs : List IrqInput) (count : Nat)
    (ok : Nat → Bool) (hok : ∀ j, j < count → ok j = true) :
    adxl345_read dev irqs count ok =
      some { ret := count,
             out := (List.range count).map (fun i => dev.data (AXES * i + dev.axis)),
             loads := (List.range count).map (fun i => AXES * i + dev.axis),
             slept := 0 } := by
  rw [adxl345_read_eq, copy_loop_ok dev ok count 0 count 0 [] []
    (fun j _ h => hok j (by omega))]
  simp [List.range_eq_range']

theorem ioctl_axis_lt (dev : adxl345_device) (cmd : Nat) (h : dev.axis < 3) :
    (adxl345_unlocked_ioctl dev cmd).2.axis < 3 := by
  unfold adxl345_unlocked_ioctl
  split
  · rename_i hc
    simp only [ADXL345_SET_AXIS_X, ADXL345_SET_AXIS_Y, ADXL345_SET_AXIS_Z] at hc ⊢
    rcases hc with hc | hc | hc <;> subst hc <;> simp
  · exact h

theorem step_axis_lt (dev : adxl345_device) (op : Op) (h : dev.axis < 3) :
    (step dev op).axis < 3 := by
  cases op with
  | control cmd => exact ioctl_axis_lt dev cmd h
  | acquire bus stack => exact h
  | read irqs count ok =>
    simp only [step]
    split <;> simp [after_irqs_axis, h]

theorem run_axis_lt (ops : List Op) (dev : adxl345_device) (h : dev.axis < 3) :
    (run dev ops).axis < 3 := by
  induction ops generalizing dev with
  | nil => exact h
  | cons op rest ih => exact ih (step dev op) (step_axis_lt dev op h)

/-- C1: for every device state, a control command other than 1024, 1025, 1026
makes `adxl345_unlocked_ioctl` return `-ENOTTY` (-25) and leaves the whole
device (axis and sample buffer) as it was; each of the three valid commands
returns 0, sets `axis` to `cmd - 1024` and leaves the sample buffer as it was. -/
theorem ioctl_contract (dev : adxl345_device) (cmd : Nat) :
    (cmd ≠ 1024 → cmd ≠ 1025 → cmd ≠ 1026 →
      adxl345_unlocked_ioctl dev cmd = (-25, dev)) ∧
    (cmd = 1024 ∨ cmd = 1025 ∨ cmd = 1026 →
      adxl345_unlocked_ioctl dev cmd = (0, { axis := cmd - 1024, data := dev.data })) := by
  constructor
  · intro h0 h1 h2
    simp [adxl345_unlocked_ioctl, ADXL345_SET_AXIS_X, ADXL345_SET_AXIS_Y, ADXL345_SET_AXIS_Z,
      h0, h1, h2, ENOTTY]
  · intro h
    rcases h with h | h | h <;> subst h <;>
      simp [adxl345_unlocked_ioctl, ADXL345_SET_AXIS_X, ADXL345_SET_AXIS_Y, ADXL345_SET_AXIS_Z]

/-- C1 at concrete inputs: command 7 on a device reading axis Y is refused and
changes nothing; command 1026 selects axis 2. -/
theorem ioctl_contract_witness :
    adxl345_unlocked_ioctl { axis := 1, data := fun k => k % 256 } 7
        = (-25, { axis := 1, data := fun k => k % 256 }) ∧
    adxl345_unlocked_ioctl { axis := 1, data := fun k => k % 256 } 1026
        = (0, { axis := 1026 - 1024, data := fun k => k % 256 }) :=
  ⟨(ioctl_contract _ 7).1 (by decide) (by decide) (by decide),
   (ioctl_contract _ 1026).2 (by decide)⟩

/-- A valid axis command returns 0 and stores the axis. -/
theorem ioctl_set_axis (dev : adxl345_device) (a : Nat) (ha : a < 3) :
    adxl345_unlocked_ioctl dev (ADXL345_SET_AXIS_X + a) = (0, { dev with axis := a }) := by
  interval_cases a <;>
    simp [adxl345_unlocked_ioctl, ADXL345_SET_AXIS_X, ADXL345_SET_AXIS_Y, ADXL345_SET_AXIS_Z]

/-- The bytes an acquisition pass decodes from a synthetic burst are the low
bytes of the samples' values. -/
theorem adxl345_irq_synthetic (dev : adxl345_device) (samples : Nat → Nat × Nat × Nat)
    (stack : Nat → Nat) (i a : Nat) (hi : i < 20) (ha : a < 3) :
    (adxl345_irq dev (synthetic_bus samples) stack).dev.data (3 * i + a)
      = axis_value (samples i) a % 256 := by
  rw [adxl345_irq_sample dev (synthetic_bus samples) stack i a (wire_sample (samples i)) hi ha
    rfl (by simp [wire_sample, le16])]
  interval_cases a <;> simp [wire_sample, le16, axis_value]

/-- C2: for every axis `a` in 0..2, every synthetic burst of `SAMPLES` samples of
three little-endian 16-bit pairs and every `count ≤ SAMPLES` (so in particular
`1 ≤ count ≤ SAMPLES`): the control command for axis `a` returns 0, and once it
and the acquisition pass decoding the burst have run, in either order, a read of
`count` bytes into a writable buffer returns `count`, and its i-th output byte
is `data[AXES * i + a]`, which is the low byte of sample i's value for axis `a`,
in acquisition order. -/
theorem read_round_trip (dev0 : adxl345_device) (samples : Nat → Nat × Nat × Nat)
    (stack : Nat → Nat) (irqs : List IrqInput) (ok : Nat → Bool) (a count : Nat)
    (ha : a < AXES) (hcount : count ≤ SAMPLES) (hok : ∀ i, i < count → ok i = true) :
    (adxl345_unlocked_ioctl dev0 (ADXL345_SET_AXIS_X + a)).1 = 0 ∧
    (adxl345_unlocked_ioctl (adxl345_irq dev0 (synthetic_bus samples) stack).dev
        (ADXL345_SET_AXIS_X + a)).1 = 0 ∧
    ∀ d : adxl345_device,
      (d = (adxl345_irq (adxl345_unlocked_ioctl dev0 (ADXL345_SET_AXIS_X + a)).2
              (synthetic_bus samples) stack).dev ∨
       d = (adxl345_unlocked_ioctl (adxl345_irq dev0 (synthetic_bus samples) stack).dev
              (ADXL345_SET_AXIS_X + a)).2) →
      adxl345_read d irqs count ok =
          some { ret := count,
                 out := (List.range count).map (fun i => d.data (AXES * i + a)),
                 loads := (List.range count).map (fun i => AXES * i + a),
                 slept := 0 } ∧
      ∀ i, i < count → d.data (AXES * i + a) = axis_value (samples i) a % 256 := by
  simp only [AXES] at ha
  simp only [SAMPLES] at hcount
  refine ⟨by rw [ioctl_set_axis _ a ha], by rw [ioctl_set_axis _ a ha], ?_⟩
  intro d hd
  have haxis : d.axis = a := by
    rcases hd with hd | hd <;> subst hd <;> simp [ioctl_set_axis _ a ha, adxl345_irq_axis]
  have hdata : ∀ i, i < 20 → d.data (3 * i + a) = axis_value (samples i) a % 256 := by
    intro i hi
    rcases hd with hd | hd <;> subst hd
    · exact adxl345_irq_synthetic _ samples stack i a hi ha
    · rw [ioctl_set_axis _ a ha]
      exact adxl345_irq_synthetic _ samples stack i a hi ha
  constructor
  · rw [adxl345_read_ok d irqs count ok hok, haxis]
  · intro i hi
    simp only [AXES]
    exact hdata i (by omega)

/-- C2 at a concrete input: the batch with X = 1, 2, ..., 20 and the other axes
0, axis X selected, 20 bytes read. -/
theorem read_round_trip_witness :
    adxl345_read
        (adxl345_irq (adxl345_unlocked_ioctl (kzalloc_device (fun _ => 0)) (ADXL345_SET_AXIS_X + 0)).2
          (synthetic_bus (fun i => (i + 1, 0, 0))) (fun _ => 0)).dev
        [] 20 (fun _ => true)
      = some { ret := 20,
               out := [1, 2, 3, 4, 5, 6, 7, 8, 9, 10, 11, 12, 13, 14, 15, 16, 17, 18, 19, 20],
               loads := [0, 3, 6, 9, 12, 15, 18, 21, 24, 27, 30, 33, 36, 39, 42, 45, 48, 51,
                         54, 57],
               slept := 0 } := by
  have h := ((read_round_trip (kzalloc_device (fun _ => 0)) (fun i => (i + 1, 0, 0))
    (fun _ => 0) [] (fun _ => true) 0 20 (by decide) (by decide) (fun _ _ => rfl)).2.2
      _ (Or.inl rfl)).1
  rw [h]
  decide

/-- C3, the code at `count = 25`: after the batch X = 1..20 with axis X selected,
`adxl345_read` with `count = 25` returns 25, not `SAMPLES`, and copies 25 bytes:
the 20 samples, then `data[60]` and `data[63]`, then the bytes at offsets 66, 69
and 72, which lie past the 64-byte array. -/
theorem read_25_returns_25 :
    adxl345_read ramp_device [] 25 writable
      = some { ret := 25,
               out := [1, 2, 3, 4, 5, 6, 7, 8, 9, 10, 11, 12, 13, 14, 15, 16, 17, 18, 19, 20,
                       0, 0, 170, 170, 170],
               loads := [0, 3, 6, 9, 12, 15, 18, 21, 24, 27, 30, 33, 36, 39, 42, 45, 48, 51,
                         54, 57, 60, 63, 66, 69, 72],
               slept := 0 } := by
  decide

/-- C4: a successful attach (`adxl345_probe` returns 0) issues exactly five bus
writes, `[0x00]`, `[0x2C, 0x0A]`, `[0x31, 0x00]`, `[0x38, 0x94]`,
`[0x2D, 0x08, 0x02]`, in this order, with a 1-byte read after the first whose
value changes nothing; detach issues exactly the one write `[0x2D, 0x00]`
whatever the device state; so any two attach/detach cycles issue the same
transactions. -/
theorem attach_detach_sequences (env : ProbeEnv) (h : (adxl345_probe env).ret = 0) :
    (adxl345_probe env).bus =
        [BusOp.send [0x00], BusOp.recv 1, BusOp.send [0x2C, 0x0A], BusOp.send [0x31, 0x00],
         BusOp.send [0x38, 0x94], BusOp.send [0x2D, 0x08, 0x02]] ∧
    bus_writes (adxl345_probe env).bus =
        [[0x00], [0x2C, 0x0A], [0x31, 0x00], [0x38, 0x94], [0x2D, 0x08, 0x02]] ∧
    (bus_writes (adxl345_probe env).bus).length = 5 ∧
    (∀ v : Nat, (adxl345_probe { env with dev_id := v }).ret = (adxl345_probe env).ret ∧
      (adxl345_probe { env with dev_id := v }).bus = (adxl345_probe env).bus) ∧
    (∀ (dev : adxl345_device) (r : Int),
      (adxl345_remove dev r).bus = [BusOp.send [0x2D, 0x00]] ∧ (adxl345_remove dev r).ret = 0) ∧
    (∀ (env2 : ProbeEnv) (dev dev2 : adxl345_device) (r r2 : Int),
      (adxl345_probe env2).ret = 0 →
      (adxl345_probe env2).bus ++ (adxl345_remove dev2 r2).bus
        = (adxl345_probe env).bus ++ (adxl345_remove dev r).bus) := by
  have key : ∀ e : ProbeEnv, (adxl345_probe e).ret = 0 →
      (adxl345_probe e).bus =
        [BusOp.send [0x00], BusOp.recv 1, BusOp.send [0x2C, 0x0A], BusOp.send [0x31, 0x00],
         BusOp.send [0x38, 0x94], BusOp.send [0x2D, 0x08, 0x02]] := by
    intro e he
    unfold adxl345_probe at he ⊢
    by_cases ha : e.alloc_ok = false
    · simp [ha, ENOMEM] at he
    · by_cases hr : e.irq_ret < 0
      · simp [ha, hr] at he
        omega
      · simp only [ha, hr, if_false]
        rfl
  refine ⟨key env h, ?_, ?_, ?_, ?_, ?_⟩
  · rw [key env h]; rfl
  · rw [key env h]; rfl
  · intro v
    unfold adxl345_probe
    constructor <;> (dsimp only; split <;> [rfl; (split <;> rfl)])
  · intro dev r; exact ⟨rfl, rfl⟩
  · intro env2 dev dev2 r r2 h2
    rw [key env h, key env2 h2]
    rfl

/-- C4 at a concrete input: an attach in which everything succeeds. -/
theorem attach_detach_sequences_witness :
    (adxl345_probe good_env).ret = 0 ∧
    bus_writes (adxl345_probe good_env).bus =
        [[0x00], [0x2C, 0x0A], [0x31, 0x00], [0x38, 0x94], [0x2D, 0x08, 0x02]] :=
  ⟨by decide, (attach_detach_sequences good_env (by decide)).2.1⟩

/-- C5, counterexample: in an attach where all six bus transactions of the
initialisation sequence fail, `adxl345_probe` still issues all of them, returns 0
and leaves the misc device registered. -/
theorem probe_dead_bus_counterexample :
    (∀ k, k < 6 → init_transaction_failed dead_bus_env k = true) ∧
    (adxl345_probe dead_bus_env).bus.length = 6 ∧
    (adxl345_probe dead_bus_env).ret = 0 ∧
    (adxl345_probe dead_bus_env).registered = true :=
  ⟨fun _ _ => rfl, rfl, rfl, rfl⟩

/-- C5, amended: a failed bus transaction of the initialisation sequence does
not make attach fail. Whenever allocation, `misc_register` and the interrupt
request succeed, `adxl345_probe` issues all six transactions, receives whatever
each returns, failures included, and still returns 0 with the misc device
registered. -/
theorem probe_succeeds_whatever_bus (env : ProbeEnv)
    (halloc : env.alloc_ok = true) (hmisc : env.misc_ret = 0) (hirq : env.irq_ret = 0) :
    (adxl345_probe env).replies =
        [env.bus_ret 0, env.bus_ret 1, env.bus_ret 2, env.bus_ret 3, env.bus_ret 4,
         env.bus_ret 5] ∧
    (adxl345_probe env).bus.length = 6 ∧
    (adxl345_probe env).ret = 0 ∧
    (adxl345_probe env).registered = true := by
  simp [adxl345_probe, halloc, hmisc, hirq]

/-- C5, amended, at a concrete input: every transaction answers `-EIO`, and the
attach succeeds with the device published. -/
theorem probe_succeeds_whatever_bus_witness :
    (adxl345_probe dead_bus_env).replies = [-5, -5, -5, -5, -5, -5] ∧
    (adxl345_probe dead_bus_env).ret = 0 ∧
    (adxl345_probe dead_bus_env).registered = true :=
  ⟨(probe_succeeds_whatever_bus dead_bus_env rfl rfl rfl).1,
   (probe_succeeds_whatever_bus dead_bus_env rfl rfl rfl).2.2.1,
   (probe_succeeds_whatever_bus dead_bus_env rfl rfl rfl).2.2.2⟩

/-- C6, the code on a device no acquisition pass has touched: `adxl345_read`
returns at once with the initial zero byte, both when no acquisition pass will
ever come and when one is about to come; it sleeps through none. -/
theorem read_returns_without_acquisition :
    adxl345_read (kzalloc_device (fun _ => 170)) [] 1 writable
      = some { ret := 1, out := [0], loads := [0], slept := 0 } ∧
    adxl345_read (kzalloc_device (fun _ => 170))
        [{ bus := synthetic_bus ramp_samples, stack := fun _ => 85 }] 1 writable
      = some { ret := 1, out := [0], loads := [0], slept := 0 } := by
  constructor <;> decide

/-- C7: in every device state reached from the zero-initialised device by any
sequence of control commands (any command value), acquisition passes (any bus
behaviour) and reads, `axis` is 0, 1 or 2. -/
theorem axis_invariant (tail : Nat → Nat) (ops : List Op) :
    (run (kzalloc_device tail) ops).axis = 0 ∨
    (run (kzalloc_device tail) ops).axis = 1 ∨
    (run (kzalloc_device tail) ops).axis = 2 := by
  have h := run_axis_lt ops (kzalloc_device tail) (by simp [kzalloc_device])
  omega

/-- C8, the code on the device reached by selecting axis Z: `adxl345_read` with
`count = 22` reads `data` offsets 2, 5, ..., 62, 65; offset 62 is above
`SAMPLES * AXES - 1 = 59` and offset 65 is outside the 64-byte array. -/
theorem read_22_offsets :
    (adxl345_read (run (kzalloc_device (fun _ => 170)) [Op.control ADXL345_SET_AXIS_Z])
        [] 22 writable).map (fun r => r.loads)
      = some [2, 5, 8, 11, 14, 17, 20, 23, 26, 29, 32, 35, 38, 41, 44, 47, 50, 53, 56, 59,
              62, 65] ∧
    ¬ (62 ≤ SAMPLES * AXES - 1) ∧ ¬ (65 < BUFFER_SIZE) := by
  refine ⟨by decide, by decide, by decide⟩

/-- C9, the code on a pass in which every register-select write and every burst
read fails: `adxl345_irq` does not skip the cycle. It overwrites the buffer with
the staging array the bus never filled: `data[0]`, 0 before the interrupt,
afterwards holds 85, the byte the stack happened to hold there, the buffer is
no longer what it was, and a following read of one byte returns that 85. -/
theorem irq_dead_bus_overwrites :
    (∀ i, i < SAMPLES → (dead_bus i).send_ret < 0 ∧ (dead_bus i).recv = none) ∧
    (kzalloc_device (fun _ => 0)).data 0 = 0 ∧
    (adxl345_irq (kzalloc_device (fun _ => 0)) dead_bus (fun _ => 85)).dev.data 0 = 85 ∧
    (adxl345_irq (kzalloc_device (fun _ => 0)) dead_bus (fun _ => 85)).dev.data
      ≠ (kzalloc_device (fun _ => 0)).data ∧
    adxl345_read (adxl345_irq (kzalloc_device (fun _ => 0)) dead_bus (fun _ => 85)).dev
        [] 1 writable
      = some { ret := 1, out := [85], loads := [0], slept := 0 } := by
  have h85 : (adxl345_irq (kzalloc_device (fun _ => 0)) dead_bus (fun _ => 85)).dev.data 0 = 85 := by
    decide
  refine ⟨fun _ _ => ⟨by simp [dead_bus], rfl⟩, by decide, h85, ?_, by decide⟩
  intro h
  have h0 := congrFun h 0
  rw [h85] at h0
  revert h0
  decide

/-- C10: when each burst read of an acquisition pass fills its `2 * AXES = 6`
bytes, every access to the staging array is in bounds and initialised: burst `i`
writes offsets `6 * i .. 6 * i + 5`, all below the array's 128 bytes; the offsets
written are exactly those below 120; every offset the extraction loop reads is
even, at most 118, and was written; the loop writes exactly `data[0..59]`,
inside the 64-byte array, and leaves `data[60..63]` and `axis` unchanged. -/
theorem irq_staging_bounds (dev : adxl345_device) (bus : Nat → BusReply) (stack : Nat → Nat)
    (hfull : ∀ i, i < SAMPLES → (received (bus i) (2 * AXES)).length = 2 * AXES) :
    (∀ i j, i < SAMPLES → j < 2 * AXES →
      2 * AXES * i + j ∈ (adxl345_irq dev bus stack).tmp_written ∧
      2 * AXES * i + j < 2 * BUFFER_SIZE) ∧
    (∀ k, k ∈ (adxl345_irq dev bus stack).tmp_written ↔ k < 120) ∧
    (adxl345_irq dev bus stack).tmp_read = (List.range (SAMPLES * AXES)).map (fun i => 2 * i) ∧
    (∀ k, k ∈ (adxl345_irq dev bus stack).tmp_read →
      k ≤ 118 ∧ k < 2 * BUFFER_SIZE ∧ k ∈ (adxl345_irq dev bus stack).tmp_written) ∧
    (∀ k, k ∈ (adxl345_irq dev bus stack).data_written ↔ k < SAMPLES * AXES) ∧
    (∀ k, k ∈ (adxl345_irq dev bus stack).data_written → k ≤ 59 ∧ k < BUFFER_SIZE) ∧
    (∀ k, 60 ≤ k → k < BUFFER_SIZE → (adxl345_irq dev bus stack).dev.data k = dev.data k) ∧
    (adxl345_irq dev bus stack).dev.axis = dev.axis := by
  have hw : (adxl345_irq dev bus stack).tmp_written = List.range 120 := by
    simp only [SAMPLES, AXES, Nat.reduceMul] at hfull
    exact irq_fill_written bus stack 20 hfull
  have hr : (adxl345_irq dev bus stack).tmp_read
      = (List.range (SAMPLES * AXES)).map (fun i => 2 * i) := irq_extract_reads _ _ _
  have hs : (adxl345_irq dev bus stack).data_written = List.range (SAMPLES * AXES) :=
    irq_extract_stores _ _ _
  refine ⟨?_, ?_, hr, ?_, ?_, ?_, ?_, rfl⟩
  · intro i j hi hj
    rw [hw]
    simp only [SAMPLES, AXES, BUFFER_SIZE, List.mem_range] at *
    omega
  · intro k; rw [hw]; exact List.mem_range
  · intro k hk
    rw [hr] at hk
    rw [hw]
    simp only [SAMPLES, AXES, BUFFER_SIZE, List.mem_map, List.mem_range] at *
    obtain ⟨i, hi, rfl⟩ := hk
    omega
  · intro k; rw [hs]; exact List.mem_range
  · intro k hk
    rw [hs] at hk
    simp only [SAMPLES, AXES, BUFFER_SIZE, List.mem_range] at *
    omega
  · intro k hk _
    rw [adxl345_irq_data]
    have : ¬ k < 60 := by omega
    simp [this]

/-- C10 at a concrete input: the synthetic batch X = 1..20; the last burst's
last byte goes to offset 119 and the last offset read is 118. -/
theorem irq_staging_bounds_witness :
    (2 * AXES * 19 + 5 ∈
        (adxl345_irq (kzalloc_device (fun _ => 0)) (synthetic_bus ramp_samples)
          (fun _ => 85)).tmp_written ∧
      2 * AXES * 19 + 5 < 2 * BUFFER_SIZE) ∧
    (adxl345_irq (kzalloc_device (fun _ => 0)) (synthetic_bus ramp_samples)
        (fun _ => 85)).tmp_read = (List.range (SAMPLES * AXES)).map (fun i => 2 * i) :=
  ⟨(irq_staging_bounds (kzalloc_device (fun _ => 0)) (synthetic_bus ramp_samples) (fun _ => 85)
      (fun _ _ => rfl)).1 19 5 (by decide) (by decide),
   (irq_staging_bounds (kzalloc_device (fun _ => 0)) (synthetic_bus ramp_samples) (fun _ => 85)
      (fun _ _ => rfl)).2.2.1⟩

end Adxl345

